import Mathlib

/-!
Verification of the commit-analysis pipeline of the CodeAnalysisAgent backend.

The definitions below are a shallow embedding of the Python sources:
  backend/app/services/github_service.py   (Diff Source Adapter, API Signal Detector)
  backend/app/services/analysis_service.py (Analysis Invoker output handling, Response Validator)
  backend/app/main.py                      (endpoint orchestration and History Store writes)

Pure string/JSON machinery models the parts of the Python standard library the
code relies on (json.loads, re.search for the fixed patterns, str.split).
-/

set_option maxRecDepth 8192

namespace CodeAnalysis

/-! ## Basic string helpers -/

/-- Boolean test: is the first list a leading segment of the second.  Models
Python's startswith on character lists. -/
def listPrefixEq : List Char → List Char → Bool
  | [], _ => true
  | _ :: _, [] => false
  | a :: as, b :: bs => a = b && listPrefixEq as bs

/-- Boolean substring containment on character lists (models Python `needle in hay`). -/
def containsSub : List Char → List Char → Bool
  | [], needle => listPrefixEq needle []
  | c :: t, needle => listPrefixEq needle (c :: t) || containsSub t needle

/-- Boolean substring containment on strings: `strContains hay needle`. -/
def strContains (hay needle : String) : Bool :=
  containsSub hay.toList needle.toList

/-- Models Python's str.endswith. -/
def strEndsWith (s suf : String) : Bool :=
  listPrefixEq suf.toList.reverse s.toList.reverse

/-- Models Python's str.lower (ASCII case, which is all the code relies on). -/
def pyLower (s : String) : String :=
  String.mk (s.toList.map Char.toLower)

/-- The whitespace class of Python's regex `\s` (ASCII part). -/
def isPyRegexSpace (c : Char) : Bool :=
  c = ' ' || c = '\t' || c = '\n' || c = '\r' || c = '\x0b' || c = '\x0c'

/-- Test whether a string is empty after Python's str.strip, i.e. all whitespace. -/
def pyBlank (s : String) : Bool :=
  s.toList.all isPyRegexSpace

/-! ## JSON values and a model of Python's json.loads -/

/-- Structural JSON values, the result domain of json.loads.  Numbers keep their
source lexeme: the program never inspects numeric values. -/
inductive Json where
  | null : Json
  | bool (b : Bool) : Json
  | num (raw : String) : Json
  | str (s : String) : Json
  | arr (elems : List Json) : Json
  | obj (fields : List (String × Json)) : Json

/-- JSON whitespace skipping (space, tab, newline, carriage return). -/
def skipWs : List Char → List Char
  | [] => []
  | c :: cs => if c = ' ' || c = '\t' || c = '\n' || c = '\r' then skipWs cs else c :: cs

/-- Hexadecimal digit value. -/
def hexVal (c : Char) : Option Nat :=
  if '0' ≤ c ∧ c ≤ '9' then some (c.toNat - '0'.toNat)
  else if 'a' ≤ c ∧ c ≤ 'f' then some (c.toNat - 'a'.toNat + 10)
  else if 'A' ≤ c ∧ c ≤ 'F' then some (c.toNat - 'A'.toNat + 10)
  else none

/-- Body of a JSON string literal, after the opening quote; returns the decoded
string and the rest of the input. -/
def parseStrBody : List Char → List Char → Except String (String × List Char)
  | _, [] => .error "Unterminated string"
  | acc, '"' :: rest => .ok (String.mk acc.reverse, rest)
  | acc, '\\' :: rest =>
    match rest with
    | [] => .error "Unterminated string"
    | e :: r2 =>
      if e = '"' then parseStrBody ('"' :: acc) r2
      else if e = '\\' then parseStrBody ('\\' :: acc) r2
      else if e = '/' then parseStrBody ('/' :: acc) r2
      else if e = 'b' then parseStrBody ('\x08' :: acc) r2
      else if e = 'f' then parseStrBody ('\x0c' :: acc) r2
      else if e = 'n' then parseStrBody ('\n' :: acc) r2
      else if e = 'r' then parseStrBody ('\r' :: acc) r2
      else if e = 't' then parseStrBody ('\t' :: acc) r2
      else if e = 'u' then
        match r2 with
        | h1 :: h2 :: h3 :: h4 :: r3 =>
          match hexVal h1, hexVal h2, hexVal h3, hexVal h4 with
          | some a, some b, some c, some d =>
            parseStrBody (Char.ofNat (((a * 16 + b) * 16 + c) * 16 + d) :: acc) r3
          | _, _, _, _ => .error "Invalid hex escape"
        | _ => .error "Invalid hex escape"
      else .error "Invalid escape"
  | acc, c :: rest =>
    if c.toNat < 32 then .error "Invalid control character"
    else parseStrBody (c :: acc) rest

/-- Longest digit run at the head of the input and the rest. -/
def digitsOf (cs : List Char) : List Char × List Char :=
  (cs.takeWhile Char.isDigit, cs.dropWhile Char.isDigit)

/-- Optional fraction and exponent of a JSON number, mirroring the NUMBER regex
of Python's json module (a bare dot or exponent is left unconsumed). -/
def afterInt (acc : List Char) (cs : List Char) : Except String (Json × List Char) :=
  let fr := match cs with
    | '.' :: r =>
      match digitsOf r with
      | ([], _) => (acc, cs)
      | (ds, r2) => (acc ++ '.' :: ds, r2)
    | _ => (acc, cs)
  let ex := match fr.2 with
    | e :: r =>
      if e = 'e' || e = 'E' then
        match r with
        | s :: r2 =>
          if s = '+' || s = '-' then
            match digitsOf r2 with
            | ([], _) => (fr.1, fr.2)
            | (ds, r3) => (fr.1 ++ e :: s :: ds, r3)
          else
            match digitsOf r with
            | ([], _) => (fr.1, fr.2)
            | (ds, r3) => (fr.1 ++ e :: ds, r3)
        | [] => (fr.1, fr.2)
      else (fr.1, fr.2)
    | [] => (fr.1, fr.2)
  .ok (.num (String.mk ex.1), ex.2)

/-- JSON number token, mirroring the strict grammar (no leading zeros). -/
def parseNumTok (cs : List Char) : Except String (Json × List Char) :=
  let sp := match cs with | '-' :: r => (['-'], r) | _ => (([] : List Char), cs)
  match sp.2 with
  | [] => .error "Expecting value"
  | c :: rest =>
    if c = '0' then afterInt (sp.1 ++ ['0']) rest
    else if c.isDigit then
      let dr := digitsOf rest
      afterInt (sp.1 ++ c :: dr.1) dr.2
    else .error "Expecting value"

/-- Insert a key/value pair into an object under Python dict semantics:
an existing key keeps its position and gets the new value, a new key is
appended. -/
def insertKV (kvs : List (String × Json)) (k : String) (v : Json) : List (String × Json) :=
  if kvs.any (fun p => p.1 == k) then
    kvs.map (fun p => if p.1 == k then (k, v) else p)
  else kvs ++ [(k, v)]

/-- Parser mode: a value, the items of an array, or the members of an object. -/
inductive PMode where
  | val : PMode
  | arrItems (acc : List Json) : PMode
  | objItems (acc : List (String × Json)) : PMode

/-- Recursive-descent JSON parser (fuel-indexed so that it is structural and
evaluates inside the kernel).  Mirrors Python's json.loads grammar. -/
def parseJ : Nat → PMode → List Char → Except String (Json × List Char)
  | 0, _, _ => .error "too deep"
  | fuel + 1, .val, cs0 =>
    let cs := skipWs cs0
    match cs with
    | [] => .error "Expecting value"
    | c :: rest =>
      if c = 'n' then
        match rest with
        | 'u' :: 'l' :: 'l' :: r2 => .ok (.null, r2)
        | _ => .error "Expecting value"
      else if c = 't' then
        match rest with
        | 'r' :: 'u' :: 'e' :: r2 => .ok (.bool true, r2)
        | _ => .error "Expecting value"
      else if c = 'f' then
        match rest with
        | 'a' :: 'l' :: 's' :: 'e' :: r2 => .ok (.bool false, r2)
        | _ => .error "Expecting value"
      else if c = '"' then
        match parseStrBody [] rest with
        | .ok (s, r2) => .ok (.str s, r2)
        | .error m => .error m
      else if c = '[' then
        let cs2 := skipWs rest
        match cs2 with
        | ']' :: r2 => .ok (.arr [], r2)
        | _ => parseJ fuel (.arrItems []) cs2
      else if c = '\x7b' then
        let cs2 := skipWs rest
        match cs2 with
        | '\x7d' :: r2 => .ok (.obj [], r2)
        | _ => parseJ fuel (.objItems []) cs2
      else if c = '-' || c.isDigit then parseNumTok (c :: rest)
      else .error "Expecting value"
  | fuel + 1, .arrItems acc, cs =>
    match parseJ fuel .val cs with
    | .error m => .error m
    | .ok (v, r1) =>
      match skipWs r1 with
      | ',' :: r3 => parseJ fuel (.arrItems (acc ++ [v])) r3
      | ']' :: r3 => .ok (.arr (acc ++ [v]), r3)
      | _ => .error "Expecting delimiter"
  | fuel + 1, .objItems acc, cs =>
    match cs with
    | '"' :: rest =>
      match parseStrBody [] rest with
      | .error m => .error m
      | .ok (k, r1) =>
        match skipWs r1 with
        | ':' :: r2 =>
          match parseJ fuel .val r2 with
          | .error m => .error m
          | .ok (v, r3) =>
            match skipWs r3 with
            | ',' :: r4 => parseJ fuel (.objItems (insertKV acc k v)) (skipWs r4)
            | '\x7d' :: r4 => .ok (.obj (insertKV acc k v), r4)
            | _ => .error "Expecting delimiter"
        | _ => .error "Expecting colon delimiter"
    | _ => .error "Expecting property name enclosed in double quotes"

/-- Model of Python's json.loads: parse one value, allow surrounding
whitespace, reject trailing data. -/
def jsonLoads (s : String) : Except String Json :=
  match parseJ (2 * s.length + 4) .val s.toList with
  | .error m => .error m
  | .ok (j, rest) =>
    match skipWs rest with
    | [] => .ok j
    | _ => .error "Extra data"

/-! ## github_service.py : API Signal Detector, File Classifier, Diff Source Adapter -/

/-- One atom of the fixed regex patterns used by the detector: a single
character predicate, matched once or zero-or-more times.  All regexes in
github_service.py are concatenations of such atoms. -/
inductive RAtom where
  | one (p : Char → Bool) : RAtom
  | star (p : Char → Bool) : RAtom

/-- Does the atom sequence match a prefix of the input, starting here
(fuel-indexed backtracking matcher; existential semantics of re's match at a
fixed position). -/
def matchSeqFuel : Nat → List RAtom → List Char → Bool
  | 0, _, _ => false
  | _ + 1, [], _ => true
  | fuel + 1, .one p :: as, cs =>
    match cs with
    | [] => false
    | c :: cs2 => p c && matchSeqFuel fuel as cs2
  | fuel + 1, .star p :: as, cs =>
    matchSeqFuel fuel as cs ||
      (match cs with
       | [] => false
       | c :: cs2 => p c && matchSeqFuel fuel (.star p :: as) cs2)

/-- Match at a fixed position, with enough fuel to be exact. -/
def matchSeqAt (as : List RAtom) (cs : List Char) : Bool :=
  matchSeqFuel (cs.length + as.length + 1) as cs

/-- Model of re.search for an atom-sequence pattern: match at some position. -/
def searchSeq (as : List RAtom) : List Char → Bool
  | [] => matchSeqAt as []
  | c :: cs => matchSeqAt as (c :: cs) || searchSeq as cs

/-- Literal characters as regex atoms. -/
def litAtoms (s : String) : List RAtom :=
  s.toList.map (fun c => .one (fun d => d = c))

/-- The atom for the regex `\s*`. -/
def wsStar : RAtom := .star isPyRegexSpace

/-- One rule of the detector's table: the regex source string (as written in
the Python source), its compiled form, and the human description. -/
structure AndroidRule where
  pattern : String
  rx : List RAtom
  description : String

/-- Compiled form of the regex given by the source string of rule 1. -/
def rxSetPublicVersion : List RAtom :=
  litAtoms ".setPublicVersion" ++ [wsStar] ++ litAtoms "("

/-- Compiled form of the regex given by the source string of rule 2. -/
def rxSetContentSensitivity : List RAtom :=
  litAtoms ".setContentSensitivity" ++ [wsStar] ++ litAtoms "("

/-- Compiled form of the regex given by the source string of rule 3. -/
def rxSetVisibility : List RAtom :=
  litAtoms ".setVisibility" ++ [wsStar] ++ litAtoms "(" ++ [wsStar] ++
    litAtoms "NotificationCompat.VISIBILITY_"

/-- Compiled form of the regex given by the source string of rule 4. -/
def rxSetCategory : List RAtom :=
  litAtoms ".setCategory" ++ [wsStar] ++ litAtoms "(" ++ [wsStar] ++
    litAtoms "NotificationCompat.CATEGORY_"

/-- Rule 1 of android_api_patterns. -/
def rule1 : AndroidRule :=
  ⟨"\\.setPublicVersion\\s*\\(", rxSetPublicVersion, "Android 15 - Screen sharing protection"⟩

/-- Rule 2 of android_api_patterns. -/
def rule2 : AndroidRule :=
  ⟨"\\.setContentSensitivity\\s*\\(", rxSetContentSensitivity, "Android 15 - Content sensitivity"⟩

/-- Rule 3 of android_api_patterns. -/
def rule3 : AndroidRule :=
  ⟨"\\.setVisibility\\s*\\(\\s*NotificationCompat\\.VISIBILITY_", rxSetVisibility,
    "Notification visibility"⟩

/-- Rule 4 of android_api_patterns. -/
def rule4 : AndroidRule :=
  ⟨"\\.setCategory\\s*\\(\\s*NotificationCompat\\.CATEGORY_", rxSetCategory,
    "Notification category"⟩

/-- The fixed ordered rule table android_api_patterns of
GitHubService._detect_android_api_changes. -/
def androidApiPatterns : List AndroidRule := [rule1, rule2, rule3, rule4]

/-- A detected platform-API signal, as the dict appended by the detector. -/
structure ApiSignal where
  api : String
  description : String
deriving DecidableEq

/-- Worker for Python's str.split with a non-empty separator: non-overlapping,
leftmost-first (fuel-indexed so that it evaluates inside the kernel; the fuel
is one more than the input length, which is always sufficient since every step
consumes at least one character). -/
def pySplitAux (sep : List Char) : Nat → List Char → List Char → List (List Char)
  | 0, _, acc => [acc.reverse]
  | _ + 1, [], acc => [acc.reverse]
  | fuel + 1, c :: rest, acc =>
    if listPrefixEq sep (c :: rest) then
      acc.reverse :: pySplitAux sep fuel ((c :: rest).drop sep.length) []
    else pySplitAux sep fuel rest (c :: acc)

/-- Model of Python's str.split(sep) for a non-empty separator. -/
def pySplit (s sep : String) : List String :=
  (pySplitAux sep.toList (s.toList.length + 1) s.toList []).map String.mk

/-- The api identifier computed by the detector from the regex source string:
`pattern.split(r'\.')[-1].split(r'\(')[0]`. -/
def apiOf (pattern : String) : String :=
  (pySplit ((pySplit pattern "\\.").getLastD "") "\\(").headD ""

/-- The signal one rule contributes when its regex matches. -/
def sigOf (r : AndroidRule) : ApiSignal :=
  ⟨apiOf r.pattern, r.description⟩

/-- GitHubService._detect_android_api_changes: scan the patch against the fixed
rule table, appending one signal per matching rule. -/
def detect_android_api_changes (patch : String) : List ApiSignal :=
  if patch = "" then []
  else
    androidApiPatterns.foldl
      (fun acc r => if searchSeq r.rx patch.toList then acc ++ [sigOf r] else acc) []

/-- GitHubService.parse_commit_url: match the URL against
`https://github\.com/([^/]+)/([^/]+)/commit/([a-f0-9]+)` anchored at the start
(re.match), returning (owner, repo, commit hash). -/
def parse_commit_url (url : String) : Option (String × String × String) :=
  let cs := url.toList
  let pre := "https://github.com/".toList
  if listPrefixEq pre cs then
    let r0 := cs.drop pre.length
    let owner := r0.takeWhile (fun c => c ≠ '/')
    let r1 := r0.dropWhile (fun c => c ≠ '/')
    if owner = [] then none
    else
      match r1 with
      | '/' :: r2 =>
        let repo := r2.takeWhile (fun c => c ≠ '/')
        let r3 := r2.dropWhile (fun c => c ≠ '/')
        if repo = [] then none
        else
          match r3 with
          | '/' :: r4 =>
            if listPrefixEq "commit/".toList r4 then
              let r5 := r4.drop 7
              let hash := r5.takeWhile (fun c => ('a' ≤ c ∧ c ≤ 'f') ∨ ('0' ≤ c ∧ c ≤ '9'))
              if hash = [] then none
              else some (String.mk owner, String.mk repo, String.mk hash)
            else none
          | _ => none
      | _ => none
  else none

/-- A changed file as delivered by the upstream commit API (PyGithub `file`):
the patch is absent for binary/renamed-only files. -/
structure RawFile where
  filename : String
  status : String
  additions : Nat
  deletions : Nat
  changes : Nat
  patch : Option String

/-- Python falsiness of the patch field (`not file.patch`): absent or empty. -/
def pyFalsyPatch : Option String → Bool
  | none => true
  | some s => s == ""

/-- The is_android_file heuristic of get_commit_changes. -/
def isAndroidFile (filename : String) : Bool :=
  strEndsWith filename ".java" &&
    (strContains (pyLower filename) "/android/" || strContains filename "app/src/main")

/-- The file_type classification of get_commit_changes. -/
def fileTypeOf (filename : String) : String :=
  if strEndsWith filename ".java" then "java"
  else if strEndsWith filename ".kt" then "kotlin"
  else if strEndsWith filename ".xml" then "xml"
  else "other"

/-- The per-file dict built by get_commit_changes for files with a patch. -/
structure Change where
  filename : String
  status : String
  additions : Nat
  deletions : Nat
  changes : Nat
  patch : String
  is_android_file : Bool
  file_type : String
  android_api_changes : List ApiSignal

/-- The loop body of get_commit_changes: skip files without patch text,
classify the rest and attach detected signals. -/
def toChange (f : RawFile) : Option Change :=
  match f.patch with
  | none => none
  | some p =>
    if p = "" then none
    else
      some
        { filename := f.filename
          status := f.status
          additions := f.additions
          deletions := f.deletions
          changes := f.changes
          patch := p
          is_android_file := isAndroidFile f.filename
          file_type := fileTypeOf f.filename
          android_api_changes :=
            if isAndroidFile f.filename then detect_android_api_changes p else [] }

/-- The repo_info dict returned by get_commit_changes. -/
structure RepoInfo where
  repository : String
  commit : String
  files : List Change

/-- Network calls get_commit_changes performs against the upstream API. -/
inductive NetAction where
  | getRepo (full : String) : NetAction
  | getCommit (hash : String) : NetAction
deriving DecidableEq

/-- The try block of GitHubService.get_commit_changes (lines 88-135): parse
the URL first, raising the typed GitHubError with the bare message on failure
before any network call, then fetch the commit's files (supplied here as
`commitFiles`) and build the repo_info dict.  The second component records the
network calls performed. -/
def get_commit_changes_try (url : String) (commitFiles : List RawFile) :
    Except String RepoInfo × List NetAction :=
  match parse_commit_url url with
  | none => (.error "Invalid GitHub commit URL format", [])
  | some (owner, repo, hash) =>
    (.ok
      { repository := owner ++ "/" ++ repo
        commit := hash
        files := commitFiles.filterMap toChange },
     [.getRepo (owner ++ "/" ++ repo), .getCommit hash])

/-- GitHubService.get_commit_changes with its except chain (lines 137-142).
The GitHubError raised inside the try block is neither a
RateLimitExceededException nor a GithubException, so it is caught by the
function's own generic `except Exception` at line 141 and re-raised as a
GitHubError whose message is prefixed with "Error fetching commit changes: ".
The error the caller observes therefore carries the wrapped message. -/
def get_commit_changes (url : String) (commitFiles : List RawFile) :
    Except String RepoInfo × List NetAction :=
  match get_commit_changes_try url commitFiles with
  | (.error m, trace) => (.error ("Error fetching commit changes: " ++ m), trace)
  | (.ok v, trace) => (.ok v, trace)

/-! ## analysis_service.py : Response Validator and per-file analysis loop -/

/-- First lookup of a key in a parsed JSON object (objects produced by
`jsonLoads` have unique keys, matching Python dicts). -/
def pyGet (kvs : List (String × Json)) (k : String) : Option Json :=
  (kvs.find? (fun p => p.1 == k)).map (fun p => p.2)

/-- Rendering of `type(data)` for the validator's error messages. -/
def typeName : Json → String
  | .null => "NoneType"
  | .bool _ => "bool"
  | .num _ => "number"
  | .str _ => "str"
  | .arr _ => "list"
  | .obj _ => "dict"

/-- The leaf types appearing in the required_fields schema. -/
inductive SchemaTy where
  | boolTy : SchemaTy
  | strTy : SchemaTy
  | listTy : SchemaTy

mutual

/-- The shape of the required_fields schema value: nested dicts of expected
types. -/
inductive PySchema where
  | ofType (t : SchemaTy) : PySchema
  | object (fields : PyFields) : PySchema

/-- An ordered association of schema keys to sub-schemas (the items of a dict
schema, in declaration order). -/
inductive PyFields where
  | nil : PyFields
  | cons (key : String) (sub : PySchema) (rest : PyFields) : PyFields

end

/-- Build schema fields from a list of pairs. -/
def PyFields.ofList : List (String × PySchema) → PyFields
  | [] => .nil
  | (k, s) :: rest => .cons k s (PyFields.ofList rest)

/-- The declared keys of a dict schema. -/
def PyFields.keys : PyFields → List String
  | .nil => []
  | .cons k _ rest => k :: rest.keys

/-- Path concatenation of validate_field:
`f"{path + '.' if path else ''}{key}"`. -/
def pathJoin (path key : String) : String :=
  (if path = "" then "" else path ++ ".") ++ key

mutual

/-- validate_field of AnalysisService.analyze_changes (lines 214-230).  Dict
schemas require every declared key and recurse; type schemas check the value's
type and reject blank required strings. -/
def validate_field : Json → PySchema → String → Except String Unit
  | data, .object fields, path =>
    match data with
    | .obj kvs => validateFields kvs fields path
    | _ => .error ("Expected dict at " ++ path ++ ", got " ++ typeName data)
  | data, .ofType t, path =>
    match t with
    | .boolTy =>
      match data with
      | .bool _ => .ok ()
      | _ => .error ("Invalid type for " ++ path ++ ": expected bool, got " ++ typeName data)
    | .strTy =>
      match data with
      | .str s =>
        if pyBlank s then .error ("Empty string not allowed for " ++ path) else .ok ()
      | _ => .error ("Invalid type for " ++ path ++ ": expected str, got " ++ typeName data)
    | .listTy =>
      match data with
      | .arr _ => .ok ()
      | _ => .error ("Invalid type for " ++ path ++ ": expected list, got " ++ typeName data)

/-- The key loop of validate_field over a dict schema, in declaration order. -/
def validateFields : List (String × Json) → PyFields → String → Except String Unit
  | _, .nil, _ => .ok ()
  | kvs, .cons key sub rest, path =>
    match pyGet kvs key with
    | none => .error ("Missing required field: " ++ pathJoin path key)
    | some v =>
      match validate_field v sub (pathJoin path key) with
      | .error m => .error m
      | .ok _ => validateFields kvs rest path

end

/-- The required_fields schema of AnalysisService.analyze_changes. -/
def requiredFields : PySchema :=
  .object
    (.ofList
      [("compatibility_testing_required", .ofType .boolTy),
       ("compatibility_analysis",
         .object
           (.ofList
             [("reasoning", .ofType .strTy),
              ("affected_versions",
                .object
                  (.ofList
                    [("min_version", .ofType .strTy),
                     ("target_versions", .ofType .listTy),
                     ("specific_apis", .ofType .listTy)]))])),
       ("compatibility_reasons", .ofType .listTy),
       ("security_implications", .ofType .listTy),
       ("ui_impact",
         .object
           (.ofList
             [("has_visual_changes", .ofType .boolTy),
              ("reasoning", .ofType .strTy),
              ("changes", .ofType .listTy)])),
       ("testing_recommendations", .ofType .listTy)])

/-- The raw reasoning-engine output as seen by analyze_changes: either text
(`analysis_result.content` is a str, or bytes) or a non-text value carried by
its str() rendering. -/
inductive Payload where
  | text (s : String) : Payload
  | nonText (rep : String) : Payload

/-- The prefix of the input up to and including its last closing brace, if any. -/
def upToLastClose : List Char → Option (List Char)
  | [] => none
  | c :: cs =>
    match upToLastClose cs with
    | some t => some (c :: t)
    | none => if c = '\x7d' then some [c] else none

/-- Model of `re.search(r'\x7b.*\x7d', s, re.DOTALL)` followed by group(0):
the greedy span from the first opening brace that has a closing brace after it,
up to the last closing brace of the whole text. -/
def extractBraceGreedy : List Char → Option (List Char)
  | [] => none
  | c :: cs =>
    if c = '\x7b' then
      match upToLastClose cs with
      | some t => some (c :: t)
      | none => extractBraceGreedy cs
    else extractBraceGreedy cs

/-- The JSON-recovery step of analyze_changes (lines 176-191): a textual
payload is parsed directly with json.loads; a non-text payload is rendered with
str() and the greedy brace span, if any, is parsed instead.  Failures carry the
ValueError message raised by the code. -/
def parseAnalysisText : Payload → Except String Json
  | .text s =>
    match jsonLoads s with
    | .ok j => .ok j
    | .error m => .error ("Failed to parse analysis result as JSON: " ++ m)
  | .nonText rep =>
    match extractBraceGreedy rep.toList with
    | some span =>
      match jsonLoads (String.mk span) with
      | .ok j => .ok j
      | .error m => .error ("Failed to parse analysis result as JSON: " ++ m)
    | none => .error "Failed to parse analysis result as JSON"

/-- The fallback analysis dict synthesized by the `except` handler of
analyze_changes (lines 240-259), with the str() of the caught exception. -/
def fallbackResult (eText : String) : Json :=
  .obj
    [("compatibility_testing_required", .bool false),
     ("compatibility_analysis",
       .obj
         [("reasoning",
            .str ("Analysis failed: " ++ eText ++ ". Unable to determine compatibility requirements.")),
          ("affected_versions",
            .obj
              [("min_version", .str "unknown"),
               ("target_versions", .arr []),
               ("specific_apis", .arr [])])]),
     ("compatibility_reasons", .arr []),
     ("security_implications", .arr []),
     ("ui_impact",
       .obj
         [("has_visual_changes", .bool false),
          ("reasoning", .str "Unable to analyze UI impact due to analysis failure."),
          ("changes", .arr [])]),
     ("testing_recommendations", .arr []),
     ("error", .str ("Analysis failed: " ++ eText))]

/-- The str() of the exception that reaches the fallback handler for a given
payload, if any: a parse ValueError, or a schema-violation ValueError. -/
def analysisFailureText (p : Payload) : Option String :=
  match parseAnalysisText p with
  | .error m => some m
  | .ok j =>
    match validate_field j requiredFields "" with
    | .error m => some ("Invalid response structure: " ++ m)
    | .ok _ => none

/-- The analysis_data finally appended for one file: the parsed and validated
JSON, or the fallback dict carrying the failure text. -/
def analysisDataFor (p : Payload) : Json :=
  match parseAnalysisText p with
  | .error m => fallbackResult m
  | .ok j =>
    match validate_field j requiredFields "" with
    | .error m => fallbackResult ("Invalid response structure: " ++ m)
    | .ok _ => j

/-- One entry of the results list of analyze_changes. -/
structure FileResult where
  filename : String
  analysis : Json
  changes : Change

/-- The commit-level report returned by analyze_changes. -/
structure AnalysisReport where
  repository : String
  commit : String
  files : List FileResult

/-- AnalysisService.analyze_changes: iterate over the files of repo_info,
skipping files whose patch is falsy, invoking the reasoning engine (`llm`
gives each file's raw output) and always appending exactly one result per
processed file. -/
def analyze_changes (llm : Change → Payload) (repoInfo : RepoInfo) : AnalysisReport :=
  { repository := repoInfo.repository
    commit := repoInfo.commit
    files :=
      repoInfo.files.filterMap fun change =>
        if change.patch == "" then none
        else
          some
            { filename := change.filename
              analysis := analysisDataFor (llm change)
              changes := change } }

/-! ## Accessors used to state properties of analysis results -/

/-- Key lookup on a JSON object value. -/
def getKey : Json → String → Option Json
  | .obj kvs, k => pyGet kvs k
  | _, _ => none

/-- Path lookup on nested JSON objects. -/
def getPath : Json → List String → Option Json
  | j, [] => some j
  | j, k :: ks =>
    match getKey j k with
    | some v => getPath v ks
    | none => none

/-- Is the value at the path the boolean false. -/
def isFalseAt (j : Json) (path : List String) : Bool :=
  match getPath j path with
  | some (.bool false) => true
  | _ => false

/-- Is the value at the path the empty list. -/
def isEmptyArrAt (j : Json) (path : List String) : Bool :=
  match getPath j path with
  | some (.arr []) => true
  | _ => false

/-- The string at the path, if the path leads to a string. -/
def strAt (j : Json) (path : List String) : Option String :=
  match getPath j path with
  | some (.str s) => some s
  | _ => none

/-! ## main.py : endpoint handler bodies and History Store writes

main.py as committed does not byte-compile: lines 144-150 are except clauses
that follow the finally of the try statement begun at line 94, which is a
SyntaxError, so the module never imports and neither handler can actually
serve a request.  The definitions below embed the handler BODIES AS WRITTEN
(lines 91-142 and 152-206) - the behavior the handlers would have once the
stray block is removed, which is the evident intent of the rest of the file -
so that the endpoint-level properties can be checked against that written
logic; the import failure itself is outside what these definitions model.

The handlers are embedded as functions of the request data, the upstream
commit files, the reasoning-engine outputs (`llm`), whether the 60-second
asyncio.wait_for deadline expired (`timedOut`), the uuid4 drawn for the new
record (`freshAid`) and the wall clock (`now`).  The persistent store is the
list of committed history records; each handler returns its HTTP response, the
committed records afterwards, and the session actions it performed (add /
commit / rollback), in order. -/

/-- A persisted history record (HistoryRecordDB). -/
structure HistoryRecord where
  aid : String
  timestamp : Nat
  repository : String
  commit_hash : String
  analysis_result : AnalysisReport
  status : String
  notes : Option String

/-- The response of an endpoint: the analysis body with its aid (analyze), a
record dict (reanalyze), or an HTTPException with status code and detail. -/
inductive ApiResponse where
  | analysisBody (report : AnalysisReport) (aid : String) : ApiResponse
  | recordBody (record : HistoryRecord) : ApiResponse
  | httpError (status : Nat) (detail : String) : ApiResponse

/-- Database session actions performed by a handler, in order. -/
inductive DbAction where
  | dbAdd (aid : String) : DbAction
  | dbCommit : DbAction
  | dbRollback : DbAction
deriving DecidableEq

/-- The analyze_commit handler body as written (POST /api/analyze, main.py
lines 152-206; the module itself never imports because of the SyntaxError at
lines 144-150, so this handler cannot actually run): fetch the commit's
changes (a GitHubError maps to a 400 client error), reject commits with no
analyzable files, run the batch under the deadline (on expiry: roll back and
answer 504 without touching the store), otherwise build and commit a fresh
HistoryRecord and answer the report with its aid. -/
def analyze_commit (db : List HistoryRecord) (commit_url : String)
    (commitFiles : List RawFile) (llm : Change → Payload) (timedOut : Bool)
    (freshAid : String) (now : Nat) :
    ApiResponse × List HistoryRecord × List DbAction :=
  match (get_commit_changes commit_url commitFiles).1 with
  | .error e => (.httpError 400 e, db, [.dbRollback])
  | .ok changes =>
    if changes.files.isEmpty then
      (.httpError 400 "No files found in commit", db, [.dbRollback])
    else if timedOut then
      (.httpError 504 "Analysis timed out. Please try again with a smaller commit.", db,
        [.dbRollback])
    else
      let results := analyze_changes llm changes
      let record : HistoryRecord :=
        { aid := freshAid
          timestamp := now
          repository := changes.repository
          commit_hash := changes.commit
          analysis_result := results
          status := "completed"
          notes := none }
      (.analysisBody results freshAid, db ++ [record], [.dbAdd freshAid, .dbCommit])

/-- The commit URL reanalyze_history_record rebuilds from the stored record. -/
def reanalyzeUrl (record : HistoryRecord) : String :=
  "https://github.com/" ++ record.repository ++ "/commit/" ++ record.commit_hash

/-- The reanalyze_history_record handler body as written (POST
/api/history/aid/reanalyze, main.py lines 91-142).  This is the very function
carrying the SyntaxError: the except clauses at lines 144-150 follow the
finally of its try statement, so the module never imports and the handler
cannot actually run; the body as written does: look up the record (404 if
unknown), re-fetch the commit (any failure maps to a 500), re-run the batch
under the deadline (on expiry: roll back and answer 504), and on success
commit a brand-new record whose notes reference the source aid. -/
def reanalyze_history_record (db : List HistoryRecord) (aid : String)
    (commitFiles : List RawFile) (llm : Change → Payload) (timedOut : Bool)
    (freshAid : String) (now : Nat) :
    ApiResponse × List HistoryRecord × List DbAction :=
  match db.find? (fun r => r.aid == aid) with
  | none => (.httpError 404 "History record not found", db, [.dbRollback])
  | some existing =>
    match (get_commit_changes (reanalyzeUrl existing) commitFiles).1 with
    | .error e => (.httpError 500 e, db, [.dbRollback])
    | .ok changes =>
      if changes.files.isEmpty then
        (.httpError 400 "No files found in commit", db, [.dbRollback])
      else if timedOut then
        (.httpError 504 "Analysis timed out. Please try again with a smaller commit.", db,
          [.dbRollback])
      else
        let results := analyze_changes llm changes
        let newRecord : HistoryRecord :=
          { aid := freshAid
            timestamp := now
            repository := existing.repository
            commit_hash := existing.commit_hash
            analysis_result := results
            status := "completed"
            notes := some ("Re-analysis of " ++ aid) }
        (.recordBody newRecord, db ++ [newRecord], [.dbAdd freshAid, .dbCommit])

/-- The new record built by reanalyze_history_record (lines 116-125). -/
def reanalysisRecordOf (existing : HistoryRecord) (aid freshAid : String) (now : Nat)
    (results : AnalysisReport) : HistoryRecord :=
  { aid := freshAid
    timestamp := now
    repository := existing.repository
    commit_hash := existing.commit_hash
    analysis_result := results
    status := "completed"
    notes := some ("Re-analysis of " ++ aid) }

/-! ## Statements of claimed properties used to exhibit counterexamples -/

/-- Is an Except value a success. -/
def isOkE : Except String Json → Bool
  | .ok _ => true
  | .error _ => false

/-- The raw payload text: the string itself, or the str() rendering of a
non-text value. -/
def payloadRawText : Payload → String
  | .text s => s
  | .nonText rep => rep

/-- Modelled from the spec: the continuation of a balanced `\x7b...\x7d` span,
tracking brace depth, up to and including the matching closing brace. -/
def balancedCloseFrom : List Char → Nat → Option (List Char)
  | [], _ => none
  | c :: cs, depth =>
    if c = '\x7b' then (balancedCloseFrom cs (depth + 1)).map (fun t => c :: t)
    else if c = '\x7d' then
      if depth = 0 then some [c]
      else (balancedCloseFrom cs (depth - 1)).map (fun t => c :: t)
    else (balancedCloseFrom cs depth).map (fun t => c :: t)

/-- Modelled from the spec (§4.4 step 1): the first balanced `\x7b...\x7d`
span of the text. -/
def specFirstBalancedSpan : List Char → Option (List Char)
  | [] => none
  | c :: cs =>
    if c = '\x7b' then
      match balancedCloseFrom cs 0 with
      | some t => some (c :: t)
      | none => specFirstBalancedSpan cs
    else specFirstBalancedSpan cs

/-- Claim C6 as stated: whenever the raw payload is not parseable as JSON but
its first balanced brace span is, the validator's parse step recovers (parses
that span instead of degrading to the fallback). -/
def c6Claim (p : Payload) : Bool :=
  match jsonLoads (payloadRawText p) with
  | .ok _ => true
  | .error _ =>
    match specFirstBalancedSpan (payloadRawText p).toList with
    | some span =>
      match jsonLoads (String.mk span) with
      | .ok _ => isOkE (parseAnalysisText p)
      | .error _ => true
    | none => true

/-- Claim C1 as stated: on any parse or schema failure, the synthesized result
has every boolean false, every list empty, EVERY reasoning string containing
the underlying failure text, and a non-empty error field. -/
def c1Stated (p : Payload) : Bool :=
  match analysisFailureText p with
  | none => true
  | some e =>
    let r := analysisDataFor p
    isFalseAt r ["compatibility_testing_required"] &&
    isFalseAt r ["ui_impact", "has_visual_changes"] &&
    isEmptyArrAt r ["compatibility_reasons"] &&
    isEmptyArrAt r ["security_implications"] &&
    isEmptyArrAt r ["testing_recommendations"] &&
    isEmptyArrAt r ["compatibility_analysis", "affected_versions", "target_versions"] &&
    isEmptyArrAt r ["compatibility_analysis", "affected_versions", "specific_apis"] &&
    isEmptyArrAt r ["ui_impact", "changes"] &&
    (match strAt r ["compatibility_analysis", "reasoning"] with
     | some s => strContains s e
     | none => false) &&
    (match strAt r ["ui_impact", "reasoning"] with
     | some s => strContains s e
     | none => false) &&
    (match strAt r ["error"] with
     | some s => !(s == "")
     | none => false)

/-- A sample reasoning-engine response that satisfies the required schema and
carries one extra key. -/
def sampleValidResponse : String :=
  "\x7b\"compatibility_testing_required\": false, \"compatibility_analysis\": \x7b\"reasoning\": \"r\", \"affected_versions\": \x7b\"min_version\": \"1\", \"target_versions\": [], \"specific_apis\": []\x7d\x7d, \"compatibility_reasons\": [], \"security_implications\": [], \"ui_impact\": \x7b\"has_visual_changes\": false, \"reasoning\": \"u\", \"changes\": []\x7d, \"testing_recommendations\": [], \"extra\": \"kept\"\x7d"

/-- The parsed value of sampleValidResponse. -/
def sampleValidResponseJson : Json :=
  .obj
    [("compatibility_testing_required", .bool false),
     ("compatibility_analysis",
       .obj
         [("reasoning", .str "r"),
          ("affected_versions",
            .obj
              [("min_version", .str "1"),
               ("target_versions", .arr []),
               ("specific_apis", .arr [])])]),
     ("compatibility_reasons", .arr []),
     ("security_implications", .arr []),
     ("ui_impact",
       .obj
         [("has_visual_changes", .bool false),
          ("reasoning", .str "u"),
          ("changes", .arr [])]),
     ("testing_recommendations", .arr []),
     ("extra", .str "kept")]

/-! ## General lemmas -/

theorem listPrefixEq_refl (l : List Char) : listPrefixEq l l = true := by
  induction l with
  | nil => rfl
  | cons c t ih => simp [listPrefixEq, ih]

theorem containsSub_append_self (pre l : List Char) : containsSub (pre ++ l) l = true := by
  induction pre with
  | nil =>
    cases l with
    | nil => rfl
    | cons c t => simp [containsSub, listPrefixEq_refl]
  | cons c t ih => simp [containsSub, ih]

theorem strContains_append_self (pre e : String) : strContains (pre ++ e) e = true := by
  show containsSub (pre ++ e).toList e.toList = true
  have h : (pre ++ e).toList = pre.toList ++ e.toList := rfl
  rw [h]
  exact containsSub_append_self _ _

theorem append_ne_empty_of_ne (a e : String) (h : a.toList ≠ []) : a ++ e ≠ "" := by
  intro hc
  have h2 : (a ++ e).toList = ([] : List Char) := by rw [hc]; rfl
  have h3 : a.toList ++ e.toList = ([] : List Char) := h2
  exact h (List.append_eq_nil.mp h3).1

theorem foldl_append_if {α β : Type} (p : α → Bool) (f : α → β) :
    ∀ (l : List α) (acc : List β),
      l.foldl (fun a r => if p r then a ++ [f r] else a) acc = acc ++ (l.filter p).map f := by
  intro l
  induction l with
  | nil => intro acc; simp
  | cons x xs ih =>
    intro acc
    by_cases h : p x
    · simp [List.foldl_cons, h, ih, List.filter_cons, List.append_assoc]
    · simp [List.foldl_cons, h, ih, List.filter_cons]

/-! ## Lemmas about the detector and the Diff Source Adapter -/

theorem detect_eq (patch : String) :
    detect_android_api_changes patch =
      if patch = "" then []
      else (androidApiPatterns.filter (fun r => searchSeq r.rx patch.toList)).map sigOf := by
  unfold detect_android_api_changes
  by_cases hp : patch = ""
  · simp [hp]
  · simp only [hp, if_false]
    simpa using foldl_append_if (fun r => searchSeq r.rx patch.toList) sigOf androidApiPatterns []

theorem toChange_spec {f : RawFile} {c : Change} (h : toChange f = some c) :
    c.filename = f.filename ∧ ¬(c.patch = "") ∧
      c.is_android_file = isAndroidFile f.filename ∧
      c.android_api_changes =
        (if isAndroidFile f.filename then detect_android_api_changes c.patch else []) := by
  unfold toChange at h
  cases hp : f.patch with
  | none => rw [hp] at h; exact absurd h (by simp)
  | some p =>
    rw [hp] at h
    by_cases hs : p = ""
    · simp [hs] at h
    · simp only [hs, if_false, Option.some.injEq] at h
      subst h
      exact ⟨rfl, hs, rfl, rfl⟩

theorem get_commit_changes_try_ok {url : String} {files : List RawFile} {repoInfo : RepoInfo}
    (h : (get_commit_changes_try url files).1 = .ok repoInfo) :
    repoInfo.files = files.filterMap toChange := by
  unfold get_commit_changes_try at h
  cases hp : parse_commit_url url with
  | none => rw [hp] at h; exact absurd h (by simp)
  | some t =>
    obtain ⟨o, r, hsh⟩ := t
    rw [hp] at h
    simp only [Except.ok.injEq] at h
    rw [← h]

theorem get_commit_changes_ok {url : String} {files : List RawFile} {repoInfo : RepoInfo}
    (h : (get_commit_changes url files).1 = .ok repoInfo) :
    repoInfo.files = files.filterMap toChange := by
  unfold get_commit_changes at h
  cases hb : get_commit_changes_try url files with
  | mk b1 b2 =>
    rw [hb] at h
    cases b1 with
    | error m => simp at h
    | ok v =>
      simp at h
      subst h
      exact get_commit_changes_try_ok (by rw [hb])

theorem filterMap_toChange_filenames (files : List RawFile) :
    (files.filterMap toChange).map (fun c => c.filename) =
      (files.filter (fun f => !(pyFalsyPatch f.patch))).map (fun f => f.filename) := by
  induction files with
  | nil => rfl
  | cons f fs ih =>
    cases hp : f.patch with
    | none =>
      simp [List.filterMap_cons, List.filter_cons, toChange, hp, pyFalsyPatch, ih]
    | some p =>
      by_cases hs : p = ""
      · simp [List.filterMap_cons, List.filter_cons, toChange, hp, hs, pyFalsyPatch, ih]
      · simp [List.filterMap_cons, List.filter_cons, toChange, hp, hs, pyFalsyPatch, ih]

theorem filterMap_toChange_nonempty (files : List RawFile) :
    ∀ c ∈ files.filterMap toChange, !(c.patch == "") := by
  intro c hc
  obtain ⟨f, _, hf⟩ := List.mem_filterMap.mp hc
  have h := (toChange_spec hf).2.1
  simpa using h

theorem analyze_changes_files_aux (llm : Change → Payload) (l : List Change) :
    (l.filterMap (fun change =>
        if change.patch == "" then none
        else
          some
            { filename := change.filename
              analysis := analysisDataFor (llm change)
              changes := change : FileResult })).map (fun fr => fr.filename) =
      (l.filter (fun c => !(c.patch == ""))).map (fun c => c.filename) := by
  induction l with
  | nil => rfl
  | cons c cs ih =>
    by_cases hs : c.patch = ""
    · simp [List.filterMap_cons, List.filter_cons, hs]
      simpa using ih
    · simp [List.filterMap_cons, List.filter_cons, hs]
      simpa using ih

theorem analyze_changes_filenames (llm : Change → Payload) (repoInfo : RepoInfo) :
    (analyze_changes llm repoInfo).files.map (fun fr => fr.filename) =
      (repoInfo.files.filter (fun c => !(c.patch == ""))).map (fun c => c.filename) :=
  analyze_changes_files_aux llm repoInfo.files

/-! ## C8 -/

/-- C8: the API Signal Detector reports presence, not count.  For every patch
text the signal list is a sublist of the fixed rule table's signals in table
order, never exceeds the four rules, contains the signal of every rule that
matches at least once, and contains each signal at most once no matter how
many occurrences match. -/
theorem c8_presence_not_count (patch : String) :
    List.Sublist (detect_android_api_changes patch) (androidApiPatterns.map sigOf)
    ∧ (detect_android_api_changes patch).length ≤ 4
    ∧ (∀ r ∈ androidApiPatterns, ¬(patch = "") → searchSeq r.rx patch.toList = true →
        sigOf r ∈ detect_android_api_changes patch)
    ∧ ∀ s : ApiSignal, (detect_android_api_changes patch).count s ≤ 1 := by
  by_cases hp : patch = ""
  · subst hp
    have hd : detect_android_api_changes "" = [] := rfl
    rw [hd]
    exact ⟨List.nil_sublist _, by simp, fun r _ hne _ => absurd rfl hne, by simp⟩
  · have hd := detect_eq patch
    simp only [hp, if_false] at hd
    rw [hd]
    refine ⟨(List.filter_sublist _).map _, ?_, ?_, ?_⟩
    · rw [List.length_map]
      exact le_trans (List.length_filter_le _ _) (by decide)
    · intro r hr _ hsearch
      exact List.mem_map_of_mem sigOf (List.mem_filter.mpr ⟨hr, hsearch⟩)
    · intro s
      have hnd : (androidApiPatterns.map sigOf).Nodup := by decide
      have hsub : List.Sublist
          ((androidApiPatterns.filter (fun r => searchSeq r.rx patch.toList)).map sigOf)
          (androidApiPatterns.map sigOf) := (List.filter_sublist _).map _
      exact le_trans (hsub.count_le s) (List.nodup_iff_count_le_one.mp hnd s)

/-- C8 witness: on a patch containing the setPublicVersion call, the matching
rule's signal is reported. -/
theorem c8_presence_not_count_witness :
    sigOf rule1 ∈ detect_android_api_changes ".setPublicVersion(" :=
  (c8_presence_not_count ".setPublicVersion(").2.2.1 rule1 (by simp [androidApiPatterns])
    (by decide) (by decide)

/-! ## C10 -/

/-- C10: the api identifier of each signal is derived textually from the regex
pattern string, so it carries regex artifacts: the four rules yield exactly
the identifiers below, and never the plain method names. -/
theorem c10_api_identifier_artifacts :
    (androidApiPatterns.map (fun r => apiOf r.pattern) =
      ["setPublicVersion\\s*", "setContentSensitivity\\s*", "VISIBILITY_", "CATEGORY_"])
    ∧ (∀ (patch : String) (s : ApiSignal), s ∈ detect_android_api_changes patch →
        s.api ∈ ["setPublicVersion\\s*", "setContentSensitivity\\s*", "VISIBILITY_", "CATEGORY_"])
    ∧ "setPublicVersion\\s*" ≠ "setPublicVersion"
    ∧ "VISIBILITY_" ≠ "setVisibility"
    ∧ "CATEGORY_" ≠ "setCategory" := by
  refine ⟨by decide, ?_, by decide, by decide, by decide⟩
  intro patch s hs
  by_cases hp : patch = ""
  · subst hp
    have hd : detect_android_api_changes "" = [] := rfl
    rw [hd] at hs
    exact absurd hs (List.not_mem_nil _)
  · have hd := detect_eq patch
    simp only [hp, if_false] at hd
    rw [hd] at hs
    obtain ⟨r, hrf, rfl⟩ := List.mem_map.mp hs
    have hr : r ∈ androidApiPatterns := List.mem_of_mem_filter hrf
    have hm : apiOf r.pattern ∈ androidApiPatterns.map (fun r => apiOf r.pattern) :=
      List.mem_map_of_mem _ hr
    have he : androidApiPatterns.map (fun r => apiOf r.pattern) =
        ["setPublicVersion\\s*", "setContentSensitivity\\s*", "VISIBILITY_", "CATEGORY_"] := by
      decide
    rw [he] at hm
    exact hm

/-- C10 witness: a concrete setPublicVersion patch yields the artifact-bearing
identifier. -/
theorem c10_api_identifier_artifacts_witness :
    (ApiSignal.mk "setPublicVersion\\s*" "Android 15 - Screen sharing protection").api ∈
      ["setPublicVersion\\s*", "setContentSensitivity\\s*", "VISIBILITY_", "CATEGORY_"] :=
  c10_api_identifier_artifacts.2.1 ".setPublicVersion("
    (ApiSignal.mk "setPublicVersion\\s*" "Android 15 - Screen sharing protection") (by decide)

/-! ## C3 -/

/-- C3: in the adapter's output, a file that is not platform-relevant carries
an empty detected-signal list regardless of patch content, and a
platform-relevant file whose patch matches the configured setPublicVersion
pattern carries a non-empty detected-signal list. -/
theorem c3_signal_detection (url : String) (files : List RawFile) (repoInfo : RepoInfo)
    (h : (get_commit_changes url files).1 = .ok repoInfo) :
    ∀ c ∈ repoInfo.files,
      (c.is_android_file = false → c.android_api_changes = [])
      ∧ (c.is_android_file = true → searchSeq rxSetPublicVersion c.patch.toList = true →
          c.android_api_changes ≠ []) := by
  intro c hc
  rw [get_commit_changes_ok h] at hc
  obtain ⟨f, _, hf⟩ := List.mem_filterMap.mp hc
  obtain ⟨_, hpne, hand, hsig⟩ := toChange_spec hf
  rw [← hand] at hsig
  constructor
  · intro hfalse
    rw [hsig, hfalse]
    rfl
  · intro htrue hsearch
    rw [hsig, htrue]
    simp only [if_true]
    have hd := detect_eq c.patch
    rw [if_neg hpne] at hd
    rw [hd]
    have hmem : sigOf rule1 ∈
        (androidApiPatterns.filter (fun r => searchSeq r.rx c.patch.toList)).map sigOf :=
      List.mem_map_of_mem sigOf
        (List.mem_filter.mpr ⟨by simp [androidApiPatterns], hsearch⟩)
    exact List.ne_nil_of_mem hmem

/-- C3 witness: a platform-relevant Java file under app/src/main whose patch
calls setPublicVersion gets a non-empty signal list. -/
theorem c3_signal_detection_witness :
    (Change.mk "app/src/main/Foo.java" "modified" 1 0 1 ".setPublicVersion(" true "java"
        [ApiSignal.mk "setPublicVersion\\s*" "Android 15 - Screen sharing protection"]
      ).android_api_changes ≠ [] :=
  (c3_signal_detection "https://github.com/o/r/commit/ab"
      [RawFile.mk "app/src/main/Foo.java" "modified" 1 0 1 (some ".setPublicVersion(")]
      (RepoInfo.mk "o/r" "ab"
        [Change.mk "app/src/main/Foo.java" "modified" 1 0 1 ".setPublicVersion(" true "java"
          [ApiSignal.mk "setPublicVersion\\s*" "Android 15 - Screen sharing protection"]])
      (by rfl)
      (Change.mk "app/src/main/Foo.java" "modified" 1 0 1 ".setPublicVersion(" true "java"
        [ApiSignal.mk "setPublicVersion\\s*" "Android 15 - Screen sharing protection"])
      (by simp)).2 (by rfl) (by decide)

/-! ## C2 -/

/-- C2: a file with an empty or absent patch never appears in the report: the
adapter's file list and the orchestrator's iteration both skip it, and the
files with non-empty patches all appear, in diff-retrieval order. -/
theorem c2_empty_patch_excluded (url : String) (files : List RawFile) (repoInfo : RepoInfo)
    (llm : Change → Payload)
    (h : (get_commit_changes url files).1 = .ok repoInfo) :
    (repoInfo.files.map (fun c => c.filename) =
      (files.filter (fun f => !(pyFalsyPatch f.patch))).map (fun f => f.filename))
    ∧ ((analyze_changes llm repoInfo).files.map (fun fr => fr.filename) =
      (files.filter (fun f => !(pyFalsyPatch f.patch))).map (fun f => f.filename))
    ∧ ∀ (repo2 : RepoInfo) (llm2 : Change → Payload),
        (analyze_changes llm2 repo2).files.map (fun fr => fr.filename) =
          (repo2.files.filter (fun c => !(c.patch == ""))).map (fun c => c.filename) := by
  have hfiles := get_commit_changes_ok h
  have h1 : repoInfo.files.map (fun c => c.filename) =
      (files.filter (fun f => !(pyFalsyPatch f.patch))).map (fun f => f.filename) := by
    rw [hfiles]
    exact filterMap_toChange_filenames files
  refine ⟨h1, ?_, fun repo2 llm2 => analyze_changes_filenames llm2 repo2⟩
  rw [analyze_changes_filenames llm repoInfo]
  have hall : repoInfo.files.filter (fun c => !(c.patch == "")) = repoInfo.files := by
    apply List.filter_eq_self.mpr
    intro c hc
    rw [hfiles] at hc
    exact filterMap_toChange_nonempty files c hc
  rw [hall]
  exact h1

/-- C2 witness: a commit with one patched file and one binary (patch-less)
file yields a report listing exactly the patched file. -/
theorem c2_empty_patch_excluded_witness :
    (RepoInfo.mk "o/r" "ab"
        [Change.mk "A.kt" "modified" 1 0 1 "x" false "kotlin" []]).files.map
        (fun c => c.filename) =
      ([RawFile.mk "A.kt" "modified" 1 0 1 (some "x"),
        RawFile.mk "B.bin" "modified" 0 0 0 none].filter
          (fun f => !(pyFalsyPatch f.patch))).map (fun f => f.filename) :=
  (c2_empty_patch_excluded "https://github.com/o/r/commit/ab"
      [RawFile.mk "A.kt" "modified" 1 0 1 (some "x"),
       RawFile.mk "B.bin" "modified" 0 0 0 none]
      (RepoInfo.mk "o/r" "ab" [Change.mk "A.kt" "modified" 1 0 1 "x" false "kotlin" []])
      (fun _ => Payload.text "x") (by rfl)).1

/-! ## C7 -/

/-- C7: a malformed commit URL is rejected with the typed GitHubError before
any network call (the network trace is empty); the bare parse-failure message
is re-wrapped by the adapter's own generic except handler (line 141) into
"Error fetching commit changes: Invalid GitHub commit URL format", and the
analyze handler body as written (in the unimportable main.py) maps that typed
error to a 400 client error without touching the store. -/
theorem c7_malformed_url_rejected (url : String) (files : List RawFile)
    (db : List HistoryRecord) (llm : Change → Payload) (timedOut : Bool)
    (freshAid : String) (now : Nat)
    (h : parse_commit_url url = none) :
    get_commit_changes url files =
      (.error "Error fetching commit changes: Invalid GitHub commit URL format", [])
    ∧ analyze_commit db url files llm timedOut freshAid now =
        (.httpError 400 "Error fetching commit changes: Invalid GitHub commit URL format", db,
          [.dbRollback]) := by
  have h1 : get_commit_changes url files =
      (.error "Error fetching commit changes: Invalid GitHub commit URL format", []) := by
    unfold get_commit_changes get_commit_changes_try
    rw [h]
    rfl
  refine ⟨h1, ?_⟩
  unfold analyze_commit
  rw [h1]

/-- C7 witness: a URL that does not match the commit locator format. -/
theorem c7_malformed_url_rejected_witness :
    get_commit_changes "not-a-url" [] =
      (.error "Error fetching commit changes: Invalid GitHub commit URL format", [])
    ∧ analyze_commit [] "not-a-url" [] (fun _ => Payload.text "x") false "f1" 7 =
        (.httpError 400 "Error fetching commit changes: Invalid GitHub commit URL format", [],
          [.dbRollback]) :=
  c7_malformed_url_rejected "not-a-url" [] [] (fun _ => Payload.text "x") false "f1" 7 (by rfl)

/-! ## C4 -/

/-- C4: the handler bodies as written implement the claimed timeout semantics:
when the 60-second batch deadline expires, both the analyze and the reanalyze
handler bodies answer 504 with the timeout detail, return no report, roll back
the session without ever adding or committing, and leave the committed records
unchanged.  (main.py itself never imports because of the SyntaxError at lines
144-150, so this is the written and intended behavior, not behavior reachable
from the committed module.) -/
theorem c4_timeout_no_persist :
    (∀ (db : List HistoryRecord) (url : String) (files : List RawFile)
       (llm : Change → Payload) (freshAid : String) (now : Nat) (repoInfo : RepoInfo),
       (get_commit_changes url files).1 = .ok repoInfo →
       repoInfo.files ≠ [] →
       analyze_commit db url files llm true freshAid now =
         (.httpError 504 "Analysis timed out. Please try again with a smaller commit.", db,
           [.dbRollback]))
    ∧ (∀ (db : List HistoryRecord) (aid : String) (files : List RawFile)
         (llm : Change → Payload) (freshAid : String) (now : Nat)
         (existing : HistoryRecord) (repoInfo : RepoInfo),
       db.find? (fun r => r.aid == aid) = some existing →
       (get_commit_changes (reanalyzeUrl existing) files).1 = .ok repoInfo →
       repoInfo.files ≠ [] →
       reanalyze_history_record db aid files llm true freshAid now =
         (.httpError 504 "Analysis timed out. Please try again with a smaller commit.", db,
           [.dbRollback])) := by
  constructor
  · intro db url files llm freshAid now repoInfo hgh hne
    cases repoInfo with
    | mk rep com fs =>
      cases fs with
      | nil => exact absurd rfl hne
      | cons a l =>
        unfold analyze_commit
        rw [hgh]
        rfl
  · intro db aid files llm freshAid now existing repoInfo hfind hgh hne
    cases repoInfo with
    | mk rep com fs =>
      cases fs with
      | nil => exact absurd rfl hne
      | cons a l =>
        unfold reanalyze_history_record
        rw [hfind]
        simp only []
        rw [hgh]
        rfl

/-- C4 witness: on a concrete one-file commit with the deadline expired, both
endpoints answer 504 and the stored records are unchanged. -/
theorem c4_timeout_no_persist_witness :
    analyze_commit [] "https://github.com/o/r/commit/ab"
        [RawFile.mk "A.kt" "modified" 1 0 1 (some "x")] (fun _ => Payload.text "x") true "f1" 7 =
      (.httpError 504 "Analysis timed out. Please try again with a smaller commit.", [],
        [.dbRollback])
    ∧ reanalyze_history_record
        [HistoryRecord.mk "a1" 0 "o/r" "ab" (AnalysisReport.mk "o/r" "ab" []) "completed" none]
        "a1" [RawFile.mk "A.kt" "modified" 1 0 1 (some "x")] (fun _ => Payload.text "x") true
        "f1" 7 =
      (.httpError 504 "Analysis timed out. Please try again with a smaller commit.",
        [HistoryRecord.mk "a1" 0 "o/r" "ab" (AnalysisReport.mk "o/r" "ab" []) "completed" none],
        [.dbRollback]) :=
  ⟨c4_timeout_no_persist.1 [] "https://github.com/o/r/commit/ab"
      [RawFile.mk "A.kt" "modified" 1 0 1 (some "x")] (fun _ => Payload.text "x") "f1" 7
      (RepoInfo.mk "o/r" "ab" [Change.mk "A.kt" "modified" 1 0 1 "x" false "kotlin" []])
      (by rfl) (by simp),
   c4_timeout_no_persist.2
      [HistoryRecord.mk "a1" 0 "o/r" "ab" (AnalysisReport.mk "o/r" "ab" []) "completed" none]
      "a1" [RawFile.mk "A.kt" "modified" 1 0 1 (some "x")] (fun _ => Payload.text "x") "f1" 7
      (HistoryRecord.mk "a1" 0 "o/r" "ab" (AnalysisReport.mk "o/r" "ab" []) "completed" none)
      (RepoInfo.mk "o/r" "ab" [Change.mk "A.kt" "modified" 1 0 1 "x" false "kotlin" []])
      (by rfl) (by rfl) (by simp)⟩

/-! ## C5 -/

/-- C5: the reanalyze handler body as written implements the claimed
semantics: on an unknown id it answers 404 and creates no record; on a known
id (when re-fetch and analysis succeed) it appends one brand-new record whose
fresh id differs from the original's, whose notes reference the original id,
and the original record stays retrievable unchanged.  (The function carries
the SyntaxError of main.py lines 144-150, so the module never imports and
this is the written and intended behavior, not reachable behavior.) -/
theorem c5_reanalyze_semantics :
    (∀ (db : List HistoryRecord) (aid : String) (files : List RawFile)
       (llm : Change → Payload) (timedOut : Bool) (freshAid : String) (now : Nat),
       db.find? (fun r => r.aid == aid) = none →
       reanalyze_history_record db aid files llm timedOut freshAid now =
         (.httpError 404 "History record not found", db, [.dbRollback]))
    ∧ (∀ (db : List HistoryRecord) (aid : String) (files : List RawFile)
         (llm : Change → Payload) (freshAid : String) (now : Nat)
         (existing : HistoryRecord) (repoInfo : RepoInfo),
       db.find? (fun r => r.aid == aid) = some existing →
       (get_commit_changes (reanalyzeUrl existing) files).1 = .ok repoInfo →
       repoInfo.files ≠ [] →
       (∀ r ∈ db, r.aid ≠ freshAid) →
       reanalyze_history_record db aid files llm false freshAid now =
         (.recordBody (reanalysisRecordOf existing aid freshAid now (analyze_changes llm repoInfo)),
           db ++ [reanalysisRecordOf existing aid freshAid now (analyze_changes llm repoInfo)],
           [.dbAdd freshAid, .dbCommit])
       ∧ (reanalysisRecordOf existing aid freshAid now (analyze_changes llm repoInfo)).aid ≠
           existing.aid
       ∧ (reanalysisRecordOf existing aid freshAid now (analyze_changes llm repoInfo)).notes =
           some ("Re-analysis of " ++ aid)
       ∧ (db ++ [reanalysisRecordOf existing aid freshAid now (analyze_changes llm repoInfo)]).find?
           (fun r => r.aid == aid) = some existing) := by
  constructor
  · intro db aid files llm timedOut freshAid now hfind
    unfold reanalyze_history_record
    rw [hfind]
  · intro db aid files llm freshAid now existing repoInfo hfind hgh hne hfresh
    refine ⟨?_, ?_, rfl, ?_⟩
    · cases repoInfo with
      | mk rep com fs =>
        cases fs with
        | nil => exact absurd rfl hne
        | cons a l =>
          unfold reanalyze_history_record
          rw [hfind]
          simp only []
          rw [hgh]
          rfl
    · have hmem := List.mem_of_find?_eq_some hfind
      intro he
      exact hfresh existing hmem he.symm
    · rw [List.find?_append, hfind]
      rfl

/-- C5 witness: unknown id answers 404 on an empty store; a known id appends
exactly one new record with a different id, notes referencing the source id,
and the original still found first. -/
theorem c5_reanalyze_semantics_witness :
    (reanalyze_history_record [] "zz" [] (fun _ => Payload.text "x") false "f1" 7 =
      (.httpError 404 "History record not found", [], [.dbRollback]))
    ∧ ((reanalysisRecordOf
          (HistoryRecord.mk "a1" 0 "o/r" "ab" (AnalysisReport.mk "o/r" "ab" []) "completed" none)
          "a1" "f1" 7
          (analyze_changes (fun _ => Payload.text "x")
            (RepoInfo.mk "o/r" "ab"
              [Change.mk "A.kt" "modified" 1 0 1 "x" false "kotlin" []]))).aid ≠
        (HistoryRecord.mk "a1" 0 "o/r" "ab" (AnalysisReport.mk "o/r" "ab" []) "completed"
          none).aid) :=
  ⟨c5_reanalyze_semantics.1 [] "zz" [] (fun _ => Payload.text "x") false "f1" 7 (by rfl),
   (c5_reanalyze_semantics.2
      [HistoryRecord.mk "a1" 0 "o/r" "ab" (AnalysisReport.mk "o/r" "ab" []) "completed" none]
      "a1" [RawFile.mk "A.kt" "modified" 1 0 1 (some "x")] (fun _ => Payload.text "x") "f1" 7
      (HistoryRecord.mk "a1" 0 "o/r" "ab" (AnalysisReport.mk "o/r" "ab" []) "completed" none)
      (RepoInfo.mk "o/r" "ab" [Change.mk "A.kt" "modified" 1 0 1 "x" false "kotlin" []])
      (by rfl) (by rfl) (by simp) (by decide)).2.1⟩

/-! ## Lemmas about substring containment with surrounding text -/

theorem listPrefixEq_append (l post : List Char) : listPrefixEq l (l ++ post) = true := by
  induction l with
  | nil => rfl
  | cons c t ih => simp [listPrefixEq, ih]

theorem containsSub_append_mid (pre l post : List Char) :
    containsSub (pre ++ (l ++ post)) l = true := by
  induction pre with
  | nil =>
    simp only [List.nil_append]
    cases l with
    | nil =>
      cases post with
      | nil => rfl
      | cons c t => simp [containsSub, listPrefixEq]
    | cons c t => simp [containsSub, listPrefixEq, listPrefixEq_append]
  | cons c t ih => simp [containsSub, ih]

theorem strContains_append_mid (pre e suf : String) :
    strContains (pre ++ e ++ suf) e = true := by
  show containsSub (pre ++ e ++ suf).toList e.toList = true
  have h : (pre ++ e ++ suf).toList = pre.toList ++ e.toList ++ suf.toList := rfl
  rw [h, List.append_assoc]
  exact containsSub_append_mid _ _ _

/-! ## C6 -/

/-- C6 counterexample: a plain-prose string payload whose first balanced brace
span is valid JSON.  The claimed recovery (parse the span whenever the raw
payload is not parseable) does not happen: the code attempts the brace-span
extraction only for non-string payloads, so this payload degrades straight to
the fallback and the claim's statement evaluates to false here. -/
theorem c6_counterexample :
    c6Claim (Payload.text "json: \x7b\"a\": 1\x7d") = false := by decide

/-- C6 amended: the validator's first step parses a textual payload directly
as JSON and, when that fails, degrades without any recovery; the greedy
brace-span extraction (first opening brace to last closing brace) is attempted
only for non-text payloads, before giving up. -/
theorem c6_parse_recovery_shape :
    (∀ (s : String) (j : Json), jsonLoads s = .ok j → parseAnalysisText (.text s) = .ok j)
    ∧ (∀ (s m : String), jsonLoads s = .error m →
        parseAnalysisText (.text s) = .error ("Failed to parse analysis result as JSON: " ++ m))
    ∧ (∀ (rep : String) (span : List Char) (j : Json),
        extractBraceGreedy rep.toList = some span →
        jsonLoads (String.mk span) = .ok j →
        parseAnalysisText (.nonText rep) = .ok j) := by
  refine ⟨?_, ?_, ?_⟩
  · intro s j h
    simp only [parseAnalysisText, h]
  · intro s m h
    simp only [parseAnalysisText, h]
  · intro rep span j h1 h2
    simp only [parseAnalysisText, h1, h2]

/-- C6 witness: a parseable text payload parses directly; an unparseable text
payload fails with the parse error; a non-text payload recovers via the greedy
brace span. -/
theorem c6_parse_recovery_shape_witness :
    parseAnalysisText (.text "true") = .ok (.bool true)
    ∧ parseAnalysisText (.text "x") =
        .error "Failed to parse analysis result as JSON: Expecting value"
    ∧ parseAnalysisText (.nonText "content=[] \x7b\"a\": []\x7d") = .ok (.obj [("a", .arr [])]) :=
  ⟨c6_parse_recovery_shape.1 "true" (.bool true) (by rfl),
   c6_parse_recovery_shape.2.1 "x" "Expecting value" (by rfl),
   c6_parse_recovery_shape.2.2 "content=[] \x7b\"a\": []\x7d" "\x7b\"a\": []\x7d".toList
     (.obj [("a", .arr [])]) (by rfl) (by rfl)⟩

/-! ## C1 -/

/-- On any parse or schema failure, the appended analysis dict is exactly the
fallback dict carrying the exception text. -/
theorem analysisDataFor_of_failure {p : Payload} {e : String}
    (h : analysisFailureText p = some e) : analysisDataFor p = fallbackResult e := by
  unfold analysisFailureText at h
  unfold analysisDataFor
  cases h1 : parseAnalysisText p with
  | error m =>
    simp only [h1] at h ⊢
    simp only [Option.some.injEq] at h
    rw [h]
  | ok j =>
    simp only [h1] at h ⊢
    cases h2 : validate_field j requiredFields "" with
    | error m =>
      simp only [h2] at h ⊢
      simp only [Option.some.injEq] at h
      rw [h]
    | ok u =>
      simp only [h2] at h
      exact absurd h (by simp)

/-- C1 counterexample: on an unparseable payload the fallback's
ui_impact.reasoning is the fixed string "Unable to analyze UI impact due to
analysis failure.", which does not contain the underlying failure text, so the
claim as stated (EVERY reasoning string contains the failure text) is false. -/
theorem c1_counterexample : c1Stated (Payload.text "no json here") = false := by decide

/-- C1 amended: on any parse or schema failure the appended result has every
boolean false, every list empty, a non-empty error field containing the
failure text, a compatibility reasoning containing the failure text, and a
fixed non-empty ui_impact reasoning (which does NOT carry the failure text);
and the orchestrator receives exactly one result per processed file. -/
theorem c1_fallback_shape (p : Payload) (e : String)
    (h : analysisFailureText p = some e) :
    (isFalseAt (analysisDataFor p) ["compatibility_testing_required"] = true
     ∧ isFalseAt (analysisDataFor p) ["ui_impact", "has_visual_changes"] = true
     ∧ isEmptyArrAt (analysisDataFor p) ["compatibility_reasons"] = true
     ∧ isEmptyArrAt (analysisDataFor p) ["security_implications"] = true
     ∧ isEmptyArrAt (analysisDataFor p) ["testing_recommendations"] = true
     ∧ isEmptyArrAt (analysisDataFor p)
         ["compatibility_analysis", "affected_versions", "target_versions"] = true
     ∧ isEmptyArrAt (analysisDataFor p)
         ["compatibility_analysis", "affected_versions", "specific_apis"] = true
     ∧ isEmptyArrAt (analysisDataFor p) ["ui_impact", "changes"] = true
     ∧ strAt (analysisDataFor p) ["error"] = some ("Analysis failed: " ++ e)
     ∧ "Analysis failed: " ++ e ≠ ""
     ∧ strContains ("Analysis failed: " ++ e) e = true
     ∧ strAt (analysisDataFor p) ["compatibility_analysis", "reasoning"] =
         some ("Analysis failed: " ++ e ++ ". Unable to determine compatibility requirements.")
     ∧ strContains
         ("Analysis failed: " ++ e ++ ". Unable to determine compatibility requirements.") e = true
     ∧ strAt (analysisDataFor p) ["ui_impact", "reasoning"] =
         some "Unable to analyze UI impact due to analysis failure.")
    ∧ ∀ (llm : Change → Payload) (repo : RepoInfo),
        (analyze_changes llm repo).files.map (fun fr => fr.filename) =
          (repo.files.filter (fun c => !(c.patch == ""))).map (fun c => c.filename) := by
  have hd := analysisDataFor_of_failure h
  rw [hd]
  exact
    ⟨⟨rfl, rfl, rfl, rfl, rfl, rfl, rfl, rfl, rfl,
      append_ne_empty_of_ne "Analysis failed: " e (by decide),
      strContains_append_self "Analysis failed: " e, rfl,
      strContains_append_mid "Analysis failed: " e
        ". Unable to determine compatibility requirements.", rfl⟩,
     fun llm repo => analyze_changes_filenames llm repo⟩

/-- C1 witness: the concrete prose payload produces the fallback with all
booleans false, empty lists and a populated error. -/
theorem c1_fallback_shape_witness :
    isFalseAt (analysisDataFor (Payload.text "no json here"))
      ["compatibility_testing_required"] = true
    ∧ strAt (analysisDataFor (Payload.text "no json here")) ["error"] =
        some ("Analysis failed: " ++
          "Failed to parse analysis result as JSON: Expecting value") :=
  ⟨((c1_fallback_shape (Payload.text "no json here")
      "Failed to parse analysis result as JSON: Expecting value" (by rfl)).1).1,
   ((c1_fallback_shape (Payload.text "no json here")
      "Failed to parse analysis result as JSON: Expecting value" (by rfl)).1).2.2.2.2.2.2.2.2.1⟩

/-! ## C9 -/

theorem pyGet_append_ne (kvs : List (String × Json)) (e k : String) (v : Json) (h : k ≠ e) :
    pyGet (kvs ++ [(e, v)]) k = pyGet kvs k := by
  unfold pyGet
  rw [List.find?_append]
  cases hf : kvs.find? (fun p => p.1 == k) with
  | some q => rfl
  | none =>
    have he : ((e, v).1 == k) = false := by
      simp only [beq_eq_false_iff_ne]
      exact fun hc => h (hc.symm)
    simp [List.find?, he]

theorem validateFields_append_extra (kvs : List (String × Json)) (e : String) (v : Json) :
    (fields : PyFields) → (path : String) → (∀ k ∈ fields.keys, k ≠ e) →
      validateFields (kvs ++ [(e, v)]) fields path = validateFields kvs fields path
  | .nil, _, _ => rfl
  | .cons key sub rest, path, hk => by
    have hkey : key ≠ e := hk key (by simp [PyFields.keys])
    have ih := validateFields_append_extra kvs e v rest path
      (fun k hmem => hk k (by simp only [PyFields.keys, List.mem_cons]; exact Or.inr hmem))
    unfold validateFields
    rw [pyGet_append_ne kvs e key v hkey]
    cases hg : pyGet kvs key with
    | none => rfl
    | some w =>
      cases hv : validate_field w sub (pathJoin path key) with
      | error m => simp only [hv]
      | ok u =>
        simp only [hv]
        exact ih

/-- C9: the schema walk inspects only the declared keys, so an object with all
required fields plus arbitrary extra keys validates unchanged, and a validated
object is carried verbatim (extra keys included) into the appended result. -/
theorem c9_extra_keys_preserved :
    (∀ (kvs : List (String × Json)) (e : String) (v : Json) (fields : PyFields) (path : String),
       (∀ k ∈ fields.keys, k ≠ e) →
       validate_field (.obj (kvs ++ [(e, v)])) (.object fields) path =
         validate_field (.obj kvs) (.object fields) path)
    ∧ (∀ (p : Payload) (j : Json),
       parseAnalysisText p = .ok j →
       validate_field j requiredFields "" = .ok () →
       analysisDataFor p = j) := by
  constructor
  · intro kvs e v fields path hk
    show validateFields (kvs ++ [(e, v)]) fields path = validateFields kvs fields path
    exact validateFields_append_extra kvs e v fields path hk
  · intro p j h1 h2
    unfold analysisDataFor
    simp only [h1, h2]

/-- C9 witness: appending an undeclared key does not change the validation
verdict, and a concrete valid response with an extra key is preserved verbatim
as the appended analysis value. -/
theorem c9_extra_keys_preserved_witness :
    (validate_field
        (.obj ([("compatibility_testing_required", .bool false)] ++ [("extra", .str "kept")]))
        (.object (.ofList [("compatibility_testing_required", .ofType .boolTy)])) "" =
      validate_field (.obj [("compatibility_testing_required", .bool false)])
        (.object (.ofList [("compatibility_testing_required", .ofType .boolTy)])) "")
    ∧ analysisDataFor (.text sampleValidResponse) = sampleValidResponseJson :=
  ⟨c9_extra_keys_preserved.1 [("compatibility_testing_required", .bool false)] "extra"
      (.str "kept") (.ofList [("compatibility_testing_required", .ofType .boolTy)]) ""
      (by decide),
   c9_extra_keys_preserved.2 (.text sampleValidResponse) sampleValidResponseJson
      (by rfl) (by rfl)⟩

end CodeAnalysis
